import Mathlib

set_option maxHeartbeats 1000000

/-!
Shallow embedding of `src/flac_to_mkv_converter.py` (class `FlacToMkvConverter`).

Modelling conventions:
* Python `float` durations (`audio.info.length`, the cumulative chapter cursor)
  are modelled as exact rationals `ℚ`; the code only adds durations and
  multiplies by 1000 before truncating with `int(...)`, which is `Int.tdiv`
  (truncation toward zero) on the exact value.
* External effects are inputs: the result of `FLAC(path)` is an
  `Option FlacAudio` (`none` = the constructor raised), the result of
  `Image.open(cover_art_path)` is an `Option (Nat × Nat)` (`none` = load
  failure, `some (w, h)` = the loaded image size), and the text measure
  `draw.textbbox((0,0), s, font)[2]` is an abstract function `String → Nat`.
  `subprocess.run` invocations are recorded as argument lists; the claims
  are about the issued requests, and runs are modelled with the external
  transcoder succeeding.
* Python exceptions are modelled with `Option`/error results: a function's
  error value names the exception's message.  The message of the `ValueError`
  raised by applying format spec `02d` to a `str` is modelled as the constant
  string "Unknown format code d for object of type str" (quotes dropped).
* FLAC tags read by `mutagen` are lists of strings; `audio.get(KEY, [d])[0]`
  is `pyGet0`, where a present-but-empty tag list makes `[0]` raise
  `IndexError`, which the enclosing `try` turns into the full default record.
-/

/-- A Python runtime value as far as this program distinguishes them:
the `track_number` slot holds either an `int` or a `str`. -/
inductive PyVal where
  | int (n : Int)
  | str (s : String)
deriving Repr, DecidableEq

/-- Zero-padded decimal rendering of an integer to width 2, as Python's
format spec `02d` produces on an actual `int`. -/
def padZero2 (n : Int) : String :=
  let digits := toString n.natAbs
  let bodyLen := (if n < 0 then 1 else 0) + digits.length
  let zeros := String.mk (List.replicate (2 - bodyLen) '0')
  (if n < 0 then "-" else "") ++ zeros ++ digits

/-- Python's `f"{v:02d}"`: defined on `int` values, raises `ValueError`
("Unknown format code 'd' for object of type 'str'") on `str` values,
modelled as `none`. -/
def pyFormat02d : PyVal → Option String
  | PyVal.int n => some (padZero2 n)
  | PyVal.str _ => none

/-- Characters after the last `/`, i.e. `os.path.basename` on a POSIX path. -/
def afterLastSlash (cs : List Char) : List Char :=
  cs.foldl (fun acc c => if c = '/' then [] else acc ++ [c]) []

/-- Split a basename at its last `.`: returns `(root, extension)` when a dot
exists, `none` otherwise.  Mirrors the search for the last dot in
`os.path.splitext`. -/
def splitLastDot : List Char → Option (List Char × List Char)
  | [] => none
  | c :: rest =>
      match splitLastDot rest with
      | some (pre, suf) => some (c :: pre, suf)
      | none => if c = '.' then some ([], '.' :: rest) else none

/-- `os.path.splitext(os.path.basename(path))[0]`: the filename stem.
`os.path.splitext` keeps the whole name when every character before the last
dot is itself a dot (e.g. `.bashrc`). -/
def pyStem (path : String) : String :=
  let b := afterLastSlash path.data
  match splitLastDot b with
  | some (pre, _) => if pre.all (fun c => c = '.') then String.mk b else String.mk pre
  | none => String.mk b

/-- The parts of a successfully constructed `mutagen.flac.FLAC` object that
`get_track_metadata` reads: the four tag lists and the stream info. -/
structure FlacAudio where
  titleTag : Option (List String)
  artistTag : Option (List String)
  albumTag : Option (List String)
  trackTag : Option (List String)
  sample_rate : Nat
  bits_per_sample : Nat
  channels : Nat
  length : ℚ
deriving Repr, DecidableEq

/-- The dict returned by `get_track_metadata`.  `track_number` is a `PyVal`
because the code later formats it with `02d`, which only works on `int`;
the reader in fact always stores a `str`. -/
structure TrackMetadata where
  title : String
  artist : String
  album : String
  track_number : PyVal
  duration : ℚ
  sample_rate : Nat
  bits_per_sample : Nat
  channels : Nat
deriving Repr, DecidableEq

/-- The `except`-branch dict of `get_track_metadata`. -/
def defaultMetadata (flac_path : String) : TrackMetadata :=
  { title := pyStem flac_path
    artist := "Unknown Artist"
    album := "Unknown Album"
    track_number := PyVal.str "1"
    duration := 0
    sample_rate := 44100
    bits_per_sample := 16
    channels := 2 }

/-- `audio.get(KEY, [dflt])[0]`: `none` models the `IndexError` raised by
`[0]` when the tag is present but its value list is empty. -/
def pyGet0 (tag : Option (List String)) (dflt : String) : Option String :=
  match tag with
  | none => some dflt
  | some [] => none
  | some (x :: _) => some x

/-- `FlacToMkvConverter.get_track_metadata`.  `read` is the outcome of
`FLAC(flac_path)` (`none` = the constructor raised); any failure inside the
`try` yields the default record. -/
def get_track_metadata (flac_path : String) (read : Option FlacAudio) : TrackMetadata :=
  match read with
  | none => defaultMetadata flac_path
  | some audio =>
      match pyGet0 audio.titleTag (pyStem flac_path), pyGet0 audio.artistTag "Unknown Artist",
            pyGet0 audio.albumTag "Unknown Album", pyGet0 audio.trackTag "1" with
      | some t, some ar, some al, some tn =>
          { title := t
            artist := ar
            album := al
            track_number := PyVal.str tn
            duration := audio.length
            sample_rate := audio.sample_rate
            bits_per_sample := audio.bits_per_sample
            channels := audio.channels }
      | _, _, _, _ => defaultMetadata flac_path

/-- Python `str.split()` at character level: split on runs of whitespace,
discarding empty pieces.  `acc` is the current in-progress word, reversed. -/
def splitWsAux : List Char → List Char → List (List Char)
  | [], acc => if acc = [] then [] else [acc.reverse]
  | c :: rest, acc =>
      if c.isWhitespace then
        (if acc = [] then [] else [acc.reverse]) ++ splitWsAux rest []
      else
        splitWsAux rest (c :: acc)

/-- Python `text.split()` (no separator argument). -/
def pySplit (s : String) : List String :=
  (splitWsAux s.data []).map String.mk

/-- Python `' '.join(words)`. -/
def joinWords : List String → String
  | [] => ""
  | [w] => w
  | w :: ws => w ++ " " ++ joinWords ws

/-- A word as produced by `str.split()`: nonempty and whitespace-free. -/
def goodWord (s : String) : Prop :=
  s.data ≠ [] ∧ ∀ c ∈ s.data, c.isWhitespace = false

/-- The `for word in words` loop of `FlacToMkvConverter.wrap_text`.
Python checks `if current_line:` first; here the empty case is the middle
branch, which is the same split. -/
def wrapLoop (w : String → Nat) (maxW : Nat) :
    List String → List String → List String → List String
  | [], lines, cur => lines ++ (if cur = [] then [] else [joinWords cur])
  | word :: rest, lines, cur =>
      if w (joinWords (cur ++ [word])) ≤ maxW then
        wrapLoop w maxW rest lines (cur ++ [word])
      else if cur = [] then
        wrapLoop w maxW rest (lines ++ [word]) []
      else
        wrapLoop w maxW rest (lines ++ [joinWords cur]) [word]

/-- `FlacToMkvConverter.wrap_text`: `w` abstracts
`draw.textbbox((0,0), line, font)[2]` for the given font and drawing
context. -/
def wrap_text (w : String → Nat) (max_width : Nat) (text : String) : List String :=
  wrapLoop w max_width (pySplit text) [] []

/-- A drawing/pasting operation performed on the 1920x1080 frame. -/
inductive DrawOp where
  | pasteCover (srcW srcH resizedW resizedH x y : Nat)
  | rect (x0 y0 x1 y1 : Nat) (outline : String) (lineWidth : Nat)
  | text (x y : Nat) (s : String) (fill : String)
deriving Repr, DecidableEq

/-- The frame built by `create_video_frame`: the `Image.new` parameters plus
the ordered operations applied to it. -/
structure VideoFrame where
  w : Nat
  h : Nat
  background : String
  ops : List DrawOp
deriving Repr, DecidableEq

/-- Discriminator for cover-paste operations. -/
def isPasteCover : DrawOp → Bool
  | DrawOp.pasteCover _ _ _ _ _ _ => true
  | _ => false

/-- `FlacToMkvConverter.create_video_frame`.  `cover_load` is the outcome of
`Image.open(cover_art_path)` (`none` = the open raised; `some (w, h)` = the
source image size).  The text block is inside its own `try`: the f-string
`f"{track_number:02d}. {track_title}"` raises on a `str` track number, the
`except` swallows it, and then no text is drawn. -/
def create_video_frame (wM : String → Nat) (cover_load : Option (Nat × Nat))
    (track_title : String) (track_number : PyVal) (artist album : String) : VideoFrame :=
  let width : Nat := 1920
  let height : Nat := 1080
  let coverOps : List DrawOp :=
    match cover_load with
    | some wh =>
        let cover_size := min (height - 100) (width / 2 - 100)
        let cover_x := (width / 2 - cover_size) / 2
        let cover_y := (height - cover_size) / 2
        [DrawOp.pasteCover wh.1 wh.2 cover_size cover_size cover_x cover_y]
    | none =>
        let placeholder_size := min (height - 100) (width / 2 - 100)
        let placeholder_x := (width / 2 - placeholder_size) / 2
        let placeholder_y := (height - placeholder_size) / 2
        [DrawOp.rect placeholder_x placeholder_y (placeholder_x + placeholder_size)
            (placeholder_y + placeholder_size) "white" 2,
         DrawOp.text (placeholder_x + placeholder_size / 2) (placeholder_y + placeholder_size / 2)
            "No Cover Art" "white"]
  let textOps : List DrawOp :=
    match pyFormat02d track_number with
    | none => []
    | some numTxt =>
        let track_text := numTxt ++ ". " ++ track_title
        let text_start_x := width / 2 + 50
        let text_width := width / 2 - 100
        let lines := wrap_text wM text_width track_text
        let y0 := height / 2 - 100
        (lines.enum.map fun pr => DrawOp.text text_start_x (y0 + 80 * pr.1) pr.2 "white") ++
          [DrawOp.text text_start_x (y0 + 80 * lines.length + 40) artist "lightgray",
           DrawOp.text text_start_x (y0 + 80 * lines.length + 40 + 60) album "lightgray"]
  { w := width, h := height, background := "black", ops := coverOps ++ textOps }

/-- A chapter dict as appended by `convert_to_mkv` (`stop` is the dict's
`end` key; `end` is reserved in Lean).  Offsets are in seconds. -/
structure Chapter where
  start : ℚ
  stop : ℚ
  title : String
deriving Repr, DecidableEq

/-- Python `int(q)` on an exact rational: truncation toward zero. -/
def pyInt (q : ℚ) : Int :=
  Int.tdiv q.num (Int.ofNat q.den)

/-- The five lines `create_chapter_file` writes for one chapter. -/
def chapterBlock (ch : Chapter) : List String :=
  ["[CHAPTER]",
   "TIMEBASE=1/1000",
   "START=" ++ toString (pyInt (ch.start * 1000)),
   "END=" ++ toString (pyInt (ch.stop * 1000)),
   "title=" ++ ch.title]

/-- `FlacToMkvConverter.create_chapter_file`, as the list of lines written
(each `f.write` ends with a newline; no blank lines are written). -/
def create_chapter_file (chapter_data : List Chapter) : List String :=
  ";FFMETADATA1" :: (chapter_data.map chapterBlock).flatten

/-- Python `str(...)` on a duration value (numeric rendering abstracted to
the rational's `toString`). -/
def ratStr (q : ℚ) : String := toString q

/-- Python `f"{i:03d}"` on a nonnegative `int`. -/
def pad3 (n : Nat) : String :=
  let s := toString n
  String.mk (List.replicate (3 - s.length) '0') ++ s

/-- `os.path.join(self.temp_dir, f"frame_{i:03d}.png")`. -/
def framePath (temp_dir : String) (i : Nat) : String :=
  temp_dir ++ "/frame_" ++ pad3 i ++ ".png"

/-- `os.path.join(self.temp_dir, f"video_{i:03d}.mkv")`. -/
def videoPath (temp_dir : String) (i : Nat) : String :=
  temp_dir ++ "/video_" ++ pad3 i ++ ".mkv"

/-- The per-track ffmpeg invocation built in `convert_to_mkv`. -/
def encodeCmd (frame_path flac_file : String) (duration : ℚ) (video_path : String) :
    List String :=
  ["ffmpeg", "-y",
   "-loop", "1", "-i", frame_path,
   "-i", flac_file,
   "-c:v", "libx264", "-preset", "medium", "-crf", "18",
   "-c:a", "copy",
   "-t", ratStr duration,
   "-pix_fmt", "yuv420p",
   "-r", "1",
   video_path]

/-- The mutable locals of the `for i, flac_file in enumerate(...)` loop,
plus the recorded progress calls, built frames and issued commands. -/
structure LoopState where
  total_duration : ℚ
  chapter_data : List Chapter
  video_segments : List String
  frames : List VideoFrame
  progress : List (String × Nat)
  cmds : List (List String)
deriving Repr

/-- One iteration of the per-track loop of `convert_to_mkv`.  The second
component is `some message` when the iteration raises (the chapter-title
f-string applies `02d` to the track number).  The external encode invocation
is recorded in `cmds` and modelled as succeeding. -/
def trackStep (wM : String → Nat) (cover_load : Option (Nat × Nat)) (temp_dir : String)
    (n i : Nat) (st : LoopState) (flac_file : String) (read : Option FlacAudio) :
    LoopState × Option String :=
  let st1 := { st with progress := st.progress ++
      [("Processing track " ++ toString (i + 1) ++ "/" ++ toString n, i * 50 / n)] }
  let metadata := get_track_metadata flac_file read
  let frame := create_video_frame wM cover_load metadata.title metadata.track_number
      metadata.artist metadata.album
  let frame_path := framePath temp_dir i
  let video_path := videoPath temp_dir i
  let duration := metadata.duration
  let cmd := encodeCmd frame_path flac_file duration video_path
  let st2 := { st1 with
               frames := st1.frames ++ [frame],
               cmds := st1.cmds ++ [cmd],
               video_segments := st1.video_segments ++ [video_path] }
  match pyFormat02d metadata.track_number with
  | none => (st2, some "Unknown format code d for object of type str")
  | some numTxt =>
      let ch : Chapter := { start := st2.total_duration,
                            stop := st2.total_duration + duration,
                            title := numTxt ++ ". " ++ metadata.title }
      ({ st2 with chapter_data := st2.chapter_data ++ [ch],
                  total_duration := st2.total_duration + duration }, none)

/-- The whole per-track loop; stops at the first raising iteration. -/
def convLoop (wM : String → Nat) (cover_load : Option (Nat × Nat)) (temp_dir : String)
    (n : Nat) : List (String × Option FlacAudio) → Nat → LoopState → LoopState × Option String
  | [], _, st => (st, none)
  | f :: rest, i, st =>
      match trackStep wM cover_load temp_dir n i st f.1 f.2 with
      | (st', some e) => (st', some e)
      | (st', none) => convLoop wM cover_load temp_dir n rest (i + 1) st'

/-- Everything observable about one `convert_to_mkv` run: the progress
calls, the issued transcoder commands, the built frames, the chapter list
and chapter-file lines, and the result (`Except.error` models a raised
exception carrying its message). -/
structure RunOutcome where
  progress : List (String × Nat)
  cmds : List (List String)
  frames : List VideoFrame
  chapters : List Chapter
  chapterFileLines : List String
  result : Except String Bool
deriving Repr

/-- `FlacToMkvConverter.convert_to_mkv` with a progress callback.  The
leading guard raises `ValueError` when an input is missing.  An exception
inside the `try` is re-raised as `RuntimeError("Conversion error: ...")`. -/
def convert_to_mkv (wM : String → Nat) (cover_load : Option (Nat × Nat))
    (flac_files : List (String × Option FlacAudio))
    (cover_art_path output_path temp_dir : String) : RunOutcome :=
  if flac_files.isEmpty || cover_art_path.isEmpty || output_path.isEmpty then
    { progress := [], cmds := [], frames := [], chapters := [], chapterFileLines := [],
      result := Except.error "Missing required files or output path" }
  else
    let n := flac_files.length
    let st0 : LoopState :=
      { total_duration := 0, chapter_data := [], video_segments := [],
        frames := [], progress := [], cmds := [] }
    match convLoop wM cover_load temp_dir n flac_files 0 st0 with
    | (st, some e) =>
        { progress := st.progress, cmds := st.cmds, frames := st.frames,
          chapters := st.chapter_data, chapterFileLines := [],
          result := Except.error ("Conversion error: " ++ e) }
    | (st, none) =>
        let progress1 := st.progress ++ [("Combining segments...", 50)]
        let chLines := create_chapter_file st.chapter_data
        let finalCmd := ["ffmpeg", "-y", "-f", "concat", "-safe", "0", "-i",
            temp_dir ++ "/concat.txt", "-i", temp_dir ++ "/chapters.txt", "-c", "copy",
            "-map_metadata", "1", output_path]
        let progress2 := progress1 ++ [("Creating final MKV...", 75)]
        let progress3 := progress2 ++ [("Complete!", 100)]
        { progress := progress3, cmds := st.cmds ++ [finalCmd], frames := st.frames,
          chapters := st.chapter_data, chapterFileLines := chLines,
          result := Except.ok true }

/-- `a :: b :: _` occurs contiguously in `cmd` (an adjacent flag/value pair
in an argument list). -/
def hasArgPair (cmd : List String) (a b : String) : Prop :=
  ∃ pre suf, cmd = pre ++ a :: b :: suf

/-- A line of `wrap_text` output as the proofs track it: it fits the column
or is a single word, it is nonempty, and it is the space-join of its own
words. -/
def lineOK (w : String → Nat) (maxW : Nat) (l : String) : Prop :=
  (w l ≤ maxW ∨ (pySplit l).length = 1) ∧ l ≠ "" ∧ joinWords (pySplit l) = l

/-- Fixture: a well-tagged first track. -/
def exAudio1 : FlacAudio :=
  { titleTag := some ["Overture"], artistTag := some ["The Band"],
    albumTag := some ["Live Album"], trackTag := some ["1"],
    sample_rate := 44100, bits_per_sample := 16, channels := 2, length := 180 }

/-- Fixture: a well-tagged second track. -/
def exAudio2 : FlacAudio :=
  { titleTag := some ["Finale"], artistTag := some ["The Band"],
    albumTag := some ["Live Album"], trackTag := some ["2"],
    sample_rate := 44100, bits_per_sample := 16, channels := 2, length := 200 }

/-- Fixture: an ordered two-track job input. -/
def exTracks : List (String × Option FlacAudio) :=
  [("/music/01 - Overture.flac", some exAudio1),
   ("/music/02 - Finale.flac", some exAudio2)]

/-- Fixture: a full run of `convert_to_mkv` on `exTracks` with a loadable
600x600 cover and `String.length` as the text measure. -/
def exJob : RunOutcome :=
  convert_to_mkv (fun s => s.length) (some (600, 600)) exTracks
    "/music/cover.png" "/out/album.mkv" "/tmp/flac_to_mkv_x"

/-- Fixture: a chapter list as the spec's example scenario describes. -/
def chEx : List Chapter :=
  [{ start := 0, stop := 180, title := "01. Overture" },
   { start := 180, stop := 380, title := "02. Finale" }]

/-- Fixture: the encode request issued for the first track of `exTracks`. -/
def exCmd0 : List String :=
  encodeCmd (framePath "/tmp/flac_to_mkv_x" 0) "/music/01 - Overture.flac" 180
    (videoPath "/tmp/flac_to_mkv_x" 0)

/-! ### Helper lemmas: Python string split/join and the wrap loop -/

theorem string_mk_data (s : String) : String.mk s.data = s := rfl

theorem string_data_append (a b : String) : (a ++ b).data = a.data ++ b.data := by
  cases a; cases b; rfl

theorem splitWsAux_run (cs : List Char) (h : ∀ c ∈ cs, c.isWhitespace = false) :
    ∀ acc rest, splitWsAux (cs ++ rest) acc = splitWsAux rest (cs.reverse ++ acc) := by
  induction cs with
  | nil => intro acc rest; simp
  | cons c cs ih =>
      intro acc rest
      have hc : c.isWhitespace = false := h c (List.mem_cons_self c cs)
      have hcs : ∀ x ∈ cs, x.isWhitespace = false := fun x hx => h x (List.mem_cons_of_mem _ hx)
      simp only [List.cons_append, splitWsAux, hc, Bool.false_eq_true, if_false]
      show splitWsAux (cs ++ rest) (c :: acc) = _
      rw [ih hcs (c :: acc)]
      simp [List.append_assoc]

theorem splitWsAux_good : ∀ (cs acc : List Char), (∀ c ∈ acc, c.isWhitespace = false) →
    ∀ g ∈ splitWsAux cs acc, g ≠ [] ∧ ∀ c ∈ g, c.isWhitespace = false := by
  intro cs
  induction cs with
  | nil =>
      intro acc hacc g hg
      by_cases h0 : acc = []
      · simp [splitWsAux, h0] at hg
      · simp [splitWsAux, h0] at hg
        subst hg
        refine ⟨by simpa using h0, ?_⟩
        intro c hc
        exact hacc c (List.mem_reverse.mp hc)
  | cons c rest ih =>
      intro acc hacc g hg
      by_cases hw : c.isWhitespace = true
      · simp only [splitWsAux, hw, if_true] at hg
        rcases List.mem_append.mp hg with h1 | h2
        · by_cases h0 : acc = []
          · simp [h0] at h1
          · simp [h0] at h1
            subst h1
            refine ⟨by simpa using h0, ?_⟩
            intro x hx
            exact hacc x (List.mem_reverse.mp hx)
        · exact ih [] (by simp) g h2
      · have hw' : c.isWhitespace = false := by simpa using hw
        simp only [splitWsAux, hw', Bool.false_eq_true, if_false] at hg
        refine ih (c :: acc) ?_ g hg
        intro x hx
        rcases List.mem_cons.mp hx with rfl | hx
        · exact hw'
        · exact hacc x hx

theorem pySplit_good (t : String) : ∀ s ∈ pySplit t, goodWord s := by
  intro s hs
  rcases List.mem_map.mp hs with ⟨g, hg, rfl⟩
  have h := splitWsAux_good t.data [] (by simp) g hg
  exact ⟨h.1, h.2⟩

theorem pySplit_joinWords : ∀ ws : List String, (∀ s ∈ ws, goodWord s) →
    pySplit (joinWords ws) = ws := by
  intro ws
  induction ws with
  | nil => intro _; rfl
  | cons w ws ih =>
      intro hgood
      have hw : goodWord w := hgood w (List.mem_cons_self w ws)
      have hws : ∀ s ∈ ws, goodWord s := fun s hs => hgood s (List.mem_cons_of_mem _ hs)
      cases ws with
      | nil =>
          show pySplit w = [w]
          unfold pySplit
          rw [show w.data = w.data ++ [] by simp, splitWsAux_run w.data hw.2]
          simp only [splitWsAux]
          simp [hw.1]
      | cons x ws' =>
          have hdata : (joinWords (w :: x :: ws')).data
              = w.data ++ ' ' :: (joinWords (x :: ws')).data := by
            show (w ++ " " ++ joinWords (x :: ws')).data = _
            rw [string_data_append, string_data_append, List.append_assoc]
            rfl
          unfold pySplit
          rw [hdata, splitWsAux_run w.data hw.2]
          have hsp : (' ').isWhitespace = true := by decide
          simp only [splitWsAux, hsp, if_true]
          have hne : w.data.reverse ++ [] ≠ [] := by simpa using hw.1
          simp only [hne, if_false, List.append_nil, List.reverse_reverse]
          have := ih hws
          unfold pySplit at this
          simp [this, hw.1]

theorem pySplit_single (word : String) (h : goodWord word) : pySplit word = [word] := by
  have := pySplit_joinWords [word] (by intro s hs; simp at hs; subst hs; exact h)
  simpa [joinWords] using this

theorem goodWord_ne_empty (word : String) (h : goodWord word) : word ≠ "" := by
  intro hc
  subst hc
  exact h.1 rfl

theorem joinWords_lineOK (w : String → Nat) (maxW : Nat) (cur : List String)
    (hcur : ∀ s ∈ cur, goodWord s) (hne : cur ≠ [])
    (hfit : w (joinWords cur) ≤ maxW ∨ ∃ u, cur = [u]) :
    lineOK w maxW (joinWords cur) := by
  have hsplit : pySplit (joinWords cur) = cur := pySplit_joinWords cur hcur
  refine ⟨?_, ?_, by rw [hsplit]⟩
  · rcases hfit with h | ⟨u, rfl⟩
    · exact Or.inl h
    · exact Or.inr (by simp [hsplit])
  · intro hc
    rw [hc] at hsplit
    exact hne (by simpa [pySplit, splitWsAux] using hsplit.symm)

theorem wrapLoop_flatten (w : String → Nat) (maxW : Nat) :
    ∀ (words lines cur : List String),
      (∀ s ∈ words, goodWord s) → (∀ s ∈ cur, goodWord s) →
      ((wrapLoop w maxW words lines cur).map pySplit).flatten
        = (lines.map pySplit).flatten ++ cur ++ words := by
  intro words
  induction words with
  | nil =>
      intro lines cur hw hc
      by_cases h0 : cur = []
      · simp [wrapLoop, h0]
      · simp [wrapLoop, h0, pySplit_joinWords cur hc]
  | cons word rest ih =>
      intro lines cur hw hc
      have hword : goodWord word := hw word (List.mem_cons_self word rest)
      have hrest : ∀ s ∈ rest, goodWord s := fun s hs => hw s (List.mem_cons_of_mem _ hs)
      simp only [wrapLoop]
      by_cases ht : w (joinWords (cur ++ [word])) ≤ maxW
      · rw [if_pos ht]
        have hcur' : ∀ s ∈ cur ++ [word], goodWord s := by
          intro s hs
          rcases List.mem_append.mp hs with h | h
          · exact hc s h
          · simp at h; subst h; exact hword
        rw [ih lines (cur ++ [word]) hrest hcur']
        simp [List.append_assoc]
      · rw [if_neg ht]
        by_cases h0 : cur = []
        · rw [if_pos h0]
          rw [ih (lines ++ [word]) [] hrest (by simp)]
          simp [h0, pySplit_single word hword]
        · rw [if_neg h0]
          rw [ih (lines ++ [joinWords cur]) [word] hrest
            (by intro s hs; simp at hs; subst hs; exact hword)]
          simp [pySplit_joinWords cur hc, List.append_assoc]

theorem wrapLoop_lineOK (w : String → Nat) (maxW : Nat) :
    ∀ (words lines cur : List String),
      (∀ s ∈ words, goodWord s) → (∀ s ∈ cur, goodWord s) →
      (cur = [] ∨ w (joinWords cur) ≤ maxW ∨ ∃ u, cur = [u]) →
      (∀ l ∈ lines, lineOK w maxW l) →
      ∀ l ∈ wrapLoop w maxW words lines cur, lineOK w maxW l := by
  intro words
  induction words with
  | nil =>
      intro lines cur hw hc hinv hlines l hl
      by_cases h0 : cur = []
      · simp [wrapLoop, h0] at hl
        exact hlines l hl
      · simp only [wrapLoop, if_neg h0] at hl
        rcases List.mem_append.mp hl with h | h
        · exact hlines l h
        · simp at h; subst h
          rcases hinv with rfl | hinv
          · exact absurd rfl h0
          · exact joinWords_lineOK w maxW cur hc h0 hinv
  | cons word rest ih =>
      intro lines cur hw hc hinv hlines l hl
      have hword : goodWord word := hw word (List.mem_cons_self word rest)
      have hrest : ∀ s ∈ rest, goodWord s := fun s hs => hw s (List.mem_cons_of_mem _ hs)
      simp only [wrapLoop] at hl
      by_cases ht : w (joinWords (cur ++ [word])) ≤ maxW
      · rw [if_pos ht] at hl
        refine ih lines (cur ++ [word]) hrest ?_ (Or.inr (Or.inl ht)) hlines l hl
        intro s hs
        rcases List.mem_append.mp hs with h | h
        · exact hc s h
        · simp at h; subst h; exact hword
      · rw [if_neg ht] at hl
        by_cases h0 : cur = []
        · rw [if_pos h0] at hl
          refine ih (lines ++ [word]) [] hrest (by simp) (Or.inl rfl) ?_ l hl
          intro l' hl'
          rcases List.mem_append.mp hl' with h | h
          · exact hlines l' h
          · simp at h
            rw [h]
            exact ⟨Or.inr (by rw [pySplit_single word hword]; rfl),
                   goodWord_ne_empty word hword,
                   by rw [pySplit_single word hword]; rfl⟩
        · rw [if_neg h0] at hl
          refine ih (lines ++ [joinWords cur]) [word] hrest
            (by intro s hs; simp at hs; subst hs; exact hword)
            (Or.inr (Or.inr ⟨word, rfl⟩)) ?_ l hl
          intro l' hl'
          rcases List.mem_append.mp hl' with h | h
          · exact hlines l' h
          · simp at h; subst h
            rcases hinv with rfl | hinv
            · exact absurd rfl h0
            · exact joinWords_lineOK w maxW cur hc h0 hinv

/-! ### Helper lemmas: metadata, the conversion loop, and the chapter file -/

theorem track_number_is_str (p : String) (r : Option FlacAudio) :
    ∃ s, (get_track_metadata p r).track_number = PyVal.str s := by
  cases r with
  | none => exact ⟨"1", rfl⟩
  | some a =>
      simp only [get_track_metadata]
      rcases h1 : pyGet0 a.titleTag (pyStem p) with _ | t <;>
        rcases h2 : pyGet0 a.artistTag "Unknown Artist" with _ | ar <;>
        rcases h3 : pyGet0 a.albumTag "Unknown Album" with _ | al <;>
        rcases h4 : pyGet0 a.trackTag "1" with _ | tn <;>
        exact ⟨_, rfl⟩

theorem convert_guard (wM : String → Nat) (cl : Option (Nat × Nat))
    (fs : List (String × Option FlacAudio)) (c o t : String)
    (h : (fs.isEmpty || c.isEmpty || o.isEmpty) = true) :
    convert_to_mkv wM cl fs c o t =
      { progress := [], cmds := [], frames := [], chapters := [], chapterFileLines := [],
        result := Except.error "Missing required files or output path" } := by
  unfold convert_to_mkv
  rw [if_pos h]

theorem trackStep_aborts (wM : String → Nat) (cl : Option (Nat × Nat)) (tmp : String)
    (n i : Nat) (st : LoopState) (p : String) (r : Option FlacAudio) :
    trackStep wM cl tmp n i st p r =
      ({ st with
         progress := st.progress ++
           [("Processing track " ++ toString (i + 1) ++ "/" ++ toString n, i * 50 / n)],
         frames := st.frames ++
           [create_video_frame wM cl (get_track_metadata p r).title
             (get_track_metadata p r).track_number (get_track_metadata p r).artist
             (get_track_metadata p r).album],
         cmds := st.cmds ++
           [encodeCmd (framePath tmp i) p (get_track_metadata p r).duration (videoPath tmp i)],
         video_segments := st.video_segments ++ [videoPath tmp i] },
       some "Unknown format code d for object of type str") := by
  obtain ⟨s, hs⟩ := track_number_is_str p r
  simp [trackStep, hs, pyFormat02d]

theorem convert_cons (wM : String → Nat) (cl : Option (Nat × Nat))
    (p : String) (r : Option FlacAudio) (rest : List (String × Option FlacAudio))
    (c o t : String) (hc : c.isEmpty = false) (ho : o.isEmpty = false) :
    convert_to_mkv wM cl ((p, r) :: rest) c o t =
      { progress := [("Processing track " ++ toString (1 : Nat) ++ "/" ++
            toString (rest.length + 1), 0)],
        cmds := [encodeCmd (framePath t 0) p (get_track_metadata p r).duration (videoPath t 0)],
        frames := [create_video_frame wM cl (get_track_metadata p r).title
          (get_track_metadata p r).track_number (get_track_metadata p r).artist
          (get_track_metadata p r).album],
        chapters := [],
        chapterFileLines := [],
        result := Except.error "Conversion error: Unknown format code d for object of type str" } := by
  unfold convert_to_mkv
  rw [if_neg (by simp [hc, ho])]
  simp only [convLoop, List.length_cons]
  rw [trackStep_aborts]
  simp

theorem append_ne_empty_left (a b : String) (h : a.data ≠ []) : a ++ b ≠ "" := by
  intro hc
  have hd : (a ++ b).data = [] := by rw [hc]
  rw [string_data_append] at hd
  exact h (List.append_eq_nil.mp hd).1

theorem chapterBlock_ne_empty (ch : Chapter) : ∀ l ∈ chapterBlock ch, l ≠ "" := by
  intro l hl
  simp only [chapterBlock, List.mem_cons, List.not_mem_nil, or_false] at hl
  rcases hl with rfl | rfl | rfl | rfl | rfl
  · decide
  · decide
  · exact append_ne_empty_left _ _ (by decide)
  · exact append_ne_empty_left _ _ (by decide)
  · exact append_ne_empty_left _ _ (by decide)

theorem flatten_blocks_length (chs : List Chapter) :
    ((chs.map chapterBlock).flatten).length = 5 * chs.length := by
  induction chs with
  | nil => rfl
  | cons c cs ih =>
      simp only [List.map_cons, List.flatten_cons, List.length_append, ih, List.length_cons]
      have : (chapterBlock c).length = 5 := rfl
      omega

theorem flatten_block_get (chs : List Chapter) :
    ∀ i ch, chs.get? i = some ch →
      (((chs.map chapterBlock).flatten).drop (5 * i)).take 5 = chapterBlock ch := by
  induction chs with
  | nil => intro i ch h; simp at h
  | cons c cs ih =>
      intro i ch h
      cases i with
      | zero =>
          simp only [List.get?_cons_zero, Option.some.injEq] at h
          subst h
          simp only [List.map_cons, List.flatten_cons, Nat.mul_zero, List.drop_zero]
          rw [show (5 : Nat) = (chapterBlock c).length from rfl]
          exact List.take_left _ _
      | succ j =>
          simp only [List.get?_cons_succ] at h
          simp only [List.map_cons, List.flatten_cons]
          have h5 : (chapterBlock c ++ (cs.map chapterBlock).flatten).drop 5
              = (cs.map chapterBlock).flatten := by
            rw [show (5 : Nat) = (chapterBlock c).length from rfl]
            exact List.drop_left _ _
          have hmul : 5 * (j + 1) = 5 + 5 * j := by ring
          rw [hmul, ← List.drop_drop, h5]
          exact ih j ch h

/-! ### Claim theorems -/

/-- Claim C1 (code bug evidence): on a two-track job the chapter list is not
built at all — `f"{metadata['track_number']:02d}"` raises `ValueError`
because the track number is a `str`, so the run aborts at the first chapter
entry with zero entries instead of one entry per input track. -/
theorem convert_to_mkv_builds_no_chapters :
    exJob.chapters = [] ∧ exJob.chapters.length ≠ exTracks.length ∧
    exJob.result = Except.error "Conversion error: Unknown format code d for object of type str" :=
  ⟨rfl, by decide, rfl⟩

/-- Claim C2 (code bug evidence): for every input path and every tag-read
outcome, the track number `get_track_metadata` returns is a Python `str`
(the default string `'1'` or the tag value verbatim), so formatting it with
`02d` to build the chapter title always raises `ValueError`; building the
title never succeeds, contradicting the claim that it never fails. -/
theorem chapter_title_format_always_fails (p : String) (r : Option FlacAudio) :
    pyFormat02d (get_track_metadata p r).track_number = none := by
  obtain ⟨s, hs⟩ := track_number_is_str p r
  rw [hs]
  rfl

/-- Claim C3 (code bug evidence): `get_track_metadata` never raises and on a
read failure returns exactly the documented defaults (title = filename stem,
"Unknown Artist", "Unknown Album", track number the string `'1'`,
44100/16/2, duration 0) — also when only an individual tag access fails —
but the pipeline does not continue to completion with that track:
`convert_to_mkv` raises while formatting the chapter title. -/
theorem metadata_defaults_on_read_failure :
    get_track_metadata "/music/02 - Moonlight.flac" none =
      { title := "02 - Moonlight", artist := "Unknown Artist", album := "Unknown Album",
        track_number := PyVal.str "1", duration := 0, sample_rate := 44100,
        bits_per_sample := 16, channels := 2 } ∧
    get_track_metadata "/music/03 - Empty.flac"
        (some { titleTag := some [], artistTag := some ["A"], albumTag := some ["B"],
                trackTag := some ["3"], sample_rate := 96000, bits_per_sample := 24,
                channels := 2, length := 100 }) =
      { title := "03 - Empty", artist := "Unknown Artist", album := "Unknown Album",
        track_number := PyVal.str "1", duration := 0, sample_rate := 44100,
        bits_per_sample := 16, channels := 2 } ∧
    (convert_to_mkv (fun s => s.length) (some (600, 600))
        [("/music/02 - Moonlight.flac", none)] "/music/cover.png" "/out/album.mkv"
        "/tmp/flac_to_mkv_x").result =
      Except.error "Conversion error: Unknown format code d for object of type str" :=
  ⟨rfl, rfl, rfl⟩

/-- Claim C4 counterexample: a 200x100 artwork (width ≠ height) is resized
to the fixed 860x860 square, so the scaled width-to-height ratio does not
equal the source's (860·100 ≠ 860·200): the aspect ratio is not preserved. -/
theorem cover_resize_distorts_nonsquare_art :
    (create_video_frame (fun s => s.length) (some (200, 100)) "Title" (PyVal.str "1")
        "Artist" "Album").ops.head? = some (DrawOp.pasteCover 200 100 860 860 50 110) ∧
    ¬ (860 * 100 = 860 * 200) :=
  ⟨rfl, by decide⟩

/-- Claim C4 amended: for every artwork size the cover is resized to the
fixed square `min (1080-100) (1920/2-100) = 860` ignoring the source aspect
ratio, and pasted centered: symmetric 50px margins inside the left half
(50+860+50 = 960) and symmetric 110px margins vertically (110+860+110 =
1080). -/
theorem cover_resize_fixed_square_centered (wM : String → Nat) (w h : Nat) (title : String)
    (tn : PyVal) (artist album : String) :
    (create_video_frame wM (some (w, h)) title tn artist album).ops.head? =
      some (DrawOp.pasteCover w h 860 860 50 110) ∧
    (create_video_frame wM (some (w, h)) title tn artist album).w = 1920 ∧
    (create_video_frame wM (some (w, h)) title tn artist album).h = 1080 ∧
    50 + 860 + 50 = 1920 / 2 ∧ 110 + 860 + 110 = 1080 :=
  ⟨rfl, rfl, rfl, by decide, by decide⟩

/-- Claim C5 counterexample: the claim as stated fails at a title that is a
single word wider than the column (output is 1 line, not ≥ 2), and also at
a two-word title whose raw text is wider than the column only because of
its double space (the wrapped single-space line fits, output is 1 line). -/
theorem wrap_text_single_word_single_line :
    (3 < String.length "abcdef" ∧ (wrap_text String.length 3 "abcdef").length = 1) ∧
    (3 < String.length "a  b" ∧ (wrap_text String.length 3 "a  b").length = 1) := by
  decide

/-- Claim C5 amended: if the title splits into at least two words and its
single-space-joined word sequence renders wider than the column, `wrap_text`
returns at least 2 lines; and every returned line renders within the column
width except lines consisting of a single word (which are placed alone on
their own line). -/
theorem wrap_text_wide_title (w : String → Nat) (maxW : Nat) (text : String) :
    (2 ≤ (pySplit text).length → maxW < w (joinWords (pySplit text)) →
      2 ≤ (wrap_text w maxW text).length)
    ∧ ∀ l ∈ wrap_text w maxW text, w l ≤ maxW ∨ (pySplit l).length = 1 := by
  have hflat := wrapLoop_flatten w maxW (pySplit text) [] [] (pySplit_good text) (by simp)
  have hok := wrapLoop_lineOK w maxW (pySplit text) [] [] (pySplit_good text) (by simp)
    (Or.inl rfl) (by simp)
  constructor
  · intro h2 hwide
    rcases hR : wrap_text w maxW text with _ | ⟨l, R'⟩
    · rw [wrap_text] at hR
      rw [hR] at hflat
      simp at hflat
      rw [hflat] at h2
      simp at h2
    · rcases R' with _ | ⟨l2, R''⟩
      · rw [wrap_text] at hR
        rw [hR] at hflat
        simp at hflat
        have hmem : l ∈ wrap_text w maxW text := by rw [wrap_text, hR]; simp
        have hlok := hok l hmem
        rcases hlok.1 with hle | hone
        · have : joinWords (pySplit text) = l := by rw [← hflat]; exact hlok.2.2
          rw [this] at hwide
          omega
        · rw [hflat] at hone
          omega
      · simp
  · intro l hl
    exact (hok l hl).1

/-- Claim C5 witness: a concrete two-word title wider than a 5-unit column
wraps to at least 2 lines. -/
theorem wrap_text_wide_title_witness :
    (2 ≤ (pySplit "aaa bbb").length ∧ 5 < String.length (joinWords (pySplit "aaa bbb"))) ∧
    2 ≤ (wrap_text String.length 5 "aaa bbb").length :=
  ⟨⟨by decide, by decide⟩, (wrap_text_wide_title String.length 5 "aaa bbb").1 (by decide) (by decide)⟩

/-- Claim C6 (code bug evidence): no successful run exists — the two-track
job emits only the first per-track progress call `(.., 0)` and then raises
while formatting the chapter title; no call with percent 100 (nor 50 or 75)
is ever made, so the sequence cannot end with exactly one call at 100. -/
theorem progress_sequence_never_reaches_100 :
    exJob.progress = [("Processing track 1/2", 0)] ∧
    (∀ pr ∈ exJob.progress, pr.2 ≠ 100) ∧
    exJob.result = Except.error "Conversion error: Unknown format code d for object of type str" :=
  ⟨rfl, by decide, rfl⟩

/-- Claim C7 counterexample: for one chapter the file has 6 lines — the
header plus a five-line block (`[CHAPTER]`, timebase, start, end, title) —
not the 1 + 4·1 = 5 lines a four-line block per chapter would give. -/
theorem chapter_block_is_five_lines_not_four :
    (create_chapter_file [{ start := 0, stop := 180, title := "01. Overture" }]).length = 6 ∧
    (create_chapter_file [{ start := 0, stop := 180, title := "01. Overture" }]).length ≠ 1 + 4 * 1 :=
  ⟨rfl, by decide⟩

/-- Claim C7 amended: `create_chapter_file` writes the fixed magic header
line first, then for each chapter in order a block of five lines — section
marker `[CHAPTER]`, millisecond timebase `TIMEBASE=1/1000`, integer start
offset in milliseconds, integer end offset, and a title line — with no
blank-line separators (no written line is empty). -/
theorem create_chapter_file_structure (chs : List Chapter) :
    (create_chapter_file chs).head? = some ";FFMETADATA1" ∧
    (create_chapter_file chs).length = 1 + 5 * chs.length ∧
    (∀ l ∈ create_chapter_file chs, l ≠ "") ∧
    ∀ i ch, chs.get? i = some ch →
      ((create_chapter_file chs).drop (1 + 5 * i)).take 5 =
        ["[CHAPTER]", "TIMEBASE=1/1000",
         "START=" ++ toString (pyInt (ch.start * 1000)),
         "END=" ++ toString (pyInt (ch.stop * 1000)),
         "title=" ++ ch.title] := by
  refine ⟨rfl, ?_, ?_, ?_⟩
  · simp only [create_chapter_file, List.length_cons, flatten_blocks_length]
    omega
  · intro l hl
    simp only [create_chapter_file, List.mem_cons] at hl
    rcases hl with rfl | hl
    · decide
    · rcases List.mem_flatten.mp hl with ⟨blk, hblk, hlblk⟩
      rcases List.mem_map.mp hblk with ⟨ch, _, rfl⟩
      exact chapterBlock_ne_empty ch l hlblk
  · intro i ch h
    have hdrop : (create_chapter_file chs).drop (1 + 5 * i)
        = ((chs.map chapterBlock).flatten).drop (5 * i) := by
      simp only [create_chapter_file]
      rw [Nat.add_comm 1 (5 * i), List.drop_succ_cons]
    rw [hdrop, flatten_block_get chs i ch h]
    rfl

/-- Claim C7 witness: the second chapter of the example list (180s–380s)
occupies lines 6–10 with start 180000 and end 380000 milliseconds. -/
theorem create_chapter_file_structure_witness :
    ((create_chapter_file chEx).drop 6).take 5 =
      ["[CHAPTER]", "TIMEBASE=1/1000", "START=180000", "END=380000", "title=02. Finale"] := by
  rw [show (6 : Nat) = 1 + 5 * 1 from rfl]
  rw [(create_chapter_file_structure chEx).2.2.2 1
    { start := 180, stop := 380, title := "02. Finale" } rfl]
  have h180 : pyInt ((180 : ℚ) * 1000) = 180000 := by norm_num [pyInt]
  have h380 : pyInt ((380 : ℚ) * 1000) = 380000 := by norm_num [pyInt]
  simp only [h180, h380]
  rfl

/-- Claim C8: every encode request `convert_to_mkv` issues is for some input
track and specifies: the still frame image as the first input with
`-loop 1`, the original audio file as the second input, the audio stream
copied (`-c:a copy`, never transcoded), fixed quality `-crf 18`, constant
1 fps (`-r 1`), and the duration clamped to the track's measured duration
(`-t <duration>`). -/
theorem encode_request_shape (wM : String → Nat) (cl : Option (Nat × Nat))
    (fs : List (String × Option FlacAudio)) (c o t : String) (cmd : List String)
    (hmem : cmd ∈ (convert_to_mkv wM cl fs c o t).cmds) :
    ∃ i track, fs.get? i = some track ∧
      cmd = encodeCmd (framePath t i) track.1 (get_track_metadata track.1 track.2).duration
        (videoPath t i) ∧
      cmd.take 8 = ["ffmpeg", "-y", "-loop", "1", "-i", framePath t i, "-i", track.1] ∧
      hasArgPair cmd "-c:a" "copy" ∧
      hasArgPair cmd "-crf" "18" ∧
      hasArgPair cmd "-r" "1" ∧
      hasArgPair cmd "-t" (ratStr (get_track_metadata track.1 track.2).duration) := by
  cases fs with
  | nil =>
      rw [convert_guard wM cl [] c o t (by simp)] at hmem
      simp at hmem
  | cons f rest =>
      by_cases hce : c.isEmpty
      · rw [convert_guard wM cl (f :: rest) c o t (by simp [hce])] at hmem
        simp at hmem
      · by_cases hoe : o.isEmpty
        · rw [convert_guard wM cl (f :: rest) c o t (by simp [hoe])] at hmem
          simp at hmem
        · obtain ⟨p, r⟩ := f
          rw [convert_cons wM cl p r rest c o t (by simpa using hce) (by simpa using hoe)]
            at hmem
          simp only [List.mem_singleton] at hmem
          subst hmem
          refine ⟨0, (p, r), rfl, rfl, rfl, ?_, ?_, ?_, ?_⟩
          · exact ⟨["ffmpeg", "-y", "-loop", "1", "-i", framePath t 0, "-i", p,
              "-c:v", "libx264", "-preset", "medium", "-crf", "18"],
              ["-t", ratStr (get_track_metadata p r).duration, "-pix_fmt", "yuv420p",
               "-r", "1", videoPath t 0], rfl⟩
          · exact ⟨["ffmpeg", "-y", "-loop", "1", "-i", framePath t 0, "-i", p,
              "-c:v", "libx264", "-preset", "medium"],
              ["-c:a", "copy", "-t", ratStr (get_track_metadata p r).duration,
               "-pix_fmt", "yuv420p", "-r", "1", videoPath t 0], rfl⟩
          · exact ⟨["ffmpeg", "-y", "-loop", "1", "-i", framePath t 0, "-i", p,
              "-c:v", "libx264", "-preset", "medium", "-crf", "18", "-c:a", "copy",
              "-t", ratStr (get_track_metadata p r).duration, "-pix_fmt", "yuv420p"],
              [videoPath t 0], rfl⟩
          · exact ⟨["ffmpeg", "-y", "-loop", "1", "-i", framePath t 0, "-i", p,
              "-c:v", "libx264", "-preset", "medium", "-crf", "18", "-c:a", "copy"],
              ["-pix_fmt", "yuv420p", "-r", "1", videoPath t 0], rfl⟩

/-- Claim C8 witness: the request issued for the first track of the example
job has the claimed shape. -/
theorem encode_request_shape_witness :
    ∃ i track, exTracks.get? i = some track ∧
      exCmd0 = encodeCmd (framePath "/tmp/flac_to_mkv_x" i) track.1
        (get_track_metadata track.1 track.2).duration (videoPath "/tmp/flac_to_mkv_x" i) ∧
      exCmd0.take 8 = ["ffmpeg", "-y", "-loop", "1", "-i", framePath "/tmp/flac_to_mkv_x" i,
        "-i", track.1] ∧
      hasArgPair exCmd0 "-c:a" "copy" ∧
      hasArgPair exCmd0 "-crf" "18" ∧
      hasArgPair exCmd0 "-r" "1" ∧
      hasArgPair exCmd0 "-t" (ratStr (get_track_metadata track.1 track.2).duration) :=
  encode_request_shape (fun s => s.length) (some (600, 600)) exTracks "/music/cover.png"
    "/out/album.mkv" "/tmp/flac_to_mkv_x" exCmd0 (by decide)

/-- Claim C9: on an artwork load failure `create_video_frame` still returns
a 1920x1080 frame; it contains the white-bordered placeholder square and the
"No Cover Art" label at its center, and no cover is pasted — the failure is
swallowed, never surfaced to the caller. -/
theorem artwork_failure_draws_placeholder (wM : String → Nat) (title : String) (tn : PyVal)
    (artist album : String) :
    (create_video_frame wM none title tn artist album).w = 1920 ∧
    (create_video_frame wM none title tn artist album).h = 1080 ∧
    DrawOp.rect 50 110 910 970 "white" 2 ∈ (create_video_frame wM none title tn artist album).ops ∧
    DrawOp.text 480 540 "No Cover Art" "white" ∈
      (create_video_frame wM none title tn artist album).ops ∧
    (create_video_frame wM none title tn artist album).ops.any isPasteCover = false := by
  refine ⟨rfl, rfl, ?_, ?_, ?_⟩
  · exact List.mem_cons_self _ _
  · exact List.mem_cons_of_mem _ (List.mem_cons_self _ _)
  · cases hf : pyFormat02d tn with
    | none => simp [create_video_frame, hf, isPasteCover]
    | some s =>
        simp [create_video_frame, hf, isPasteCover, List.any_append]
        intro x i str hm he
        subst he
        rfl

/-- Claim C10: `wrap_text` preserves the word content of its input — the
words of the returned lines, concatenated in order, are exactly the
whitespace-split word sequence of the input — and no returned line is
empty. -/
theorem wrap_text_preserves_words (w : String → Nat) (maxW : Nat) (text : String) :
    ((wrap_text w maxW text).map pySplit).flatten = pySplit text
    ∧ ∀ l ∈ wrap_text w maxW text, l ≠ "" := by
  constructor
  · have h := wrapLoop_flatten w maxW (pySplit text) [] [] (pySplit_good text) (by simp)
    simpa [wrap_text] using h
  · intro l hl
    exact ((wrapLoop_lineOK w maxW (pySplit text) [] [] (pySplit_good text) (by simp)
      (Or.inl rfl) (by simp)) l hl).2.1
